import Mathlib

/-!
Verification of the authentication core of the go-template repository.

The development shallowly embeds the Go sources:
* `pkg/jwt/jwt.go` — token manager (HS256 JWTs, modelled symbolically);
* `pkg/crypto/password.go` — password hasher (bcrypt modelled as an idealized salted hash);
* `internal/domain/user/entity/user.go` — the user entity;
* the Postgres user repository — modelled as pure functions over a list of rows,
  following the SQL of each method (soft-delete filters, total unique constraints
  from migration 000001);
* `internal/domain/user/usecase/user_usecase.go` — register / login / refresh /
  profile flows, with the Redis cache as an association list;
* the gin middleware (`AuthMiddleware`, `RequireRole`) over a request context.

Wall-clock time is a `Nat` (Unix seconds); sources of randomness (uuid, jti, bcrypt
salt) are explicit parameters.
-/

namespace GoTemplate

/-! ### pkg/jwt/jwt.go — token manager

A JWT string is modelled symbolically: either garbage (`malformed`) or a signed
token carrying its header algorithm, its claim payload, and the key it was signed
with.  Signature verification succeeds exactly when the verifying secret equals
the signing key. -/

inductive Alg
  | HS256
  | HS384
  | HS512
  | RS256
deriving DecidableEq, Repr

/-- The keyfunc in jwt.go accepts exactly the HMAC family (`jwt.SigningMethodHMAC`). -/
def Alg.isHMAC : Alg → Bool
  | .HS256 | .HS384 | .HS512 => true
  | .RS256 => false

/-- The JSON claim payload of a token.  Access tokens carry `user_id`/`email`/`role`
in addition to the registered claims; refresh tokens carry only the registered
claims.  Decoding into `jwt.RegisteredClaims` ignores the extra keys, which the
model captures by reading only the registered fields. -/
structure Payload where
  user_id : Option String
  email : Option String
  role : Option String
  jti : String
  sub : String
  iat : Nat
  exp : Nat
  nbf : Nat
deriving DecidableEq, Repr

structure SignedToken where
  alg : Alg
  payload : Payload
  key : String
deriving DecidableEq, Repr

inductive TokenString
  | malformed (raw : String)
  | signed (tok : SignedToken)
deriving DecidableEq, Repr

structure Manager where
  secretKey : String
  accessTokenDuration : Nat
  refreshTokenDuration : Nat
deriving DecidableEq, Repr

/-- jwt.go `GenerateAccessToken`: full claims, HS256, `exp = now + accessTokenDuration`. -/
def Manager.GenerateAccessToken (m : Manager) (userID email role : String)
    (now : Nat) (jti : String) : TokenString :=
  TokenString.signed
    { alg := Alg.HS256
    , payload :=
        { user_id := some userID
        , email := some email
        , role := some role
        , jti := jti
        , sub := userID
        , iat := now
        , exp := now + m.accessTokenDuration
        , nbf := now }
    , key := m.secretKey }

/-- jwt.go `GenerateRefreshToken`: registered claims only, HS256,
`exp = now + refreshTokenDuration`. -/
def Manager.GenerateRefreshToken (m : Manager) (userID : String)
    (now : Nat) (jti : String) : TokenString :=
  TokenString.signed
    { alg := Alg.HS256
    , payload :=
        { user_id := none
        , email := none
        , role := none
        , jti := jti
        , sub := userID
        , iat := now
        , exp := now + m.refreshTokenDuration
        , nbf := now }
    , key := m.secretKey }

inductive JwtLibError
  | tokenMalformed
  | keyfuncFailed
  | signatureInvalid
  | tokenExpired
  | tokenNotYetValid
deriving DecidableEq, Repr

/-- Semantics of `jwt.ParseWithClaims` (golang-jwt v5) with the manager's keyfunc,
in the v5 order: structural parse, keyfunc (rejecting non-HMAC algorithms),
signature verification, then claim validation (`exp`, `nbf`).  A token is expired
when `now` is not before `exp`, and not yet valid when `now` is before `nbf`. -/
def parseWithClaimsHMAC (secret : String) (now : Nat) :
    TokenString → Except JwtLibError Payload
  | TokenString.malformed _ => Except.error JwtLibError.tokenMalformed
  | TokenString.signed tok =>
    if tok.alg.isHMAC = false then Except.error JwtLibError.keyfuncFailed
    else if tok.key ≠ secret then Except.error JwtLibError.signatureInvalid
    else if tok.payload.exp ≤ now then Except.error JwtLibError.tokenExpired
    else if now < tok.payload.nbf then Except.error JwtLibError.tokenNotYetValid
    else Except.ok tok.payload

/-- jwt.go error values relevant to callers: `ErrExpiredToken` versus
`ErrInvalidToken` (wrapping every other parse failure). -/
inductive TokenError
  | invalidToken
  | expiredToken
deriving DecidableEq, Repr

/-- The typed `Claims` struct of jwt.go: custom fields plus registered claims.
A missing JSON key leaves the Go zero value, hence `getD ""`. -/
structure Claims where
  UserID : String
  Email : String
  Role : String
  ID : String
  Subject : String
  IssuedAt : Nat
  ExpiresAt : Nat
  NotBefore : Nat
deriving DecidableEq, Repr

def payloadToClaims (p : Payload) : Claims :=
  { UserID := p.user_id.getD ""
  , Email := p.email.getD ""
  , Role := p.role.getD ""
  , ID := p.jti
  , Subject := p.sub
  , IssuedAt := p.iat
  , ExpiresAt := p.exp
  , NotBefore := p.nbf }

/-- jwt.go `ValidateAccessToken`: parse; `jwt.ErrTokenExpired` maps to
`ErrExpiredToken`, every other failure to `ErrInvalidToken`; on success the typed
claims are returned. -/
def Manager.ValidateAccessToken (m : Manager) (now : Nat) (tokenString : TokenString) :
    Except TokenError Claims :=
  match parseWithClaimsHMAC m.secretKey now tokenString with
  | Except.error JwtLibError.tokenExpired => Except.error TokenError.expiredToken
  | Except.error _ => Except.error TokenError.invalidToken
  | Except.ok p => Except.ok (payloadToClaims p)

/-- jwt.go `ValidateRefreshToken`: same parse against `jwt.RegisteredClaims`,
returning only the subject. -/
def Manager.ValidateRefreshToken (m : Manager) (now : Nat) (tokenString : TokenString) :
    Except TokenError String :=
  match parseWithClaimsHMAC m.secretKey now tokenString with
  | Except.error JwtLibError.tokenExpired => Except.error TokenError.expiredToken
  | Except.error _ => Except.error TokenError.invalidToken
  | Except.ok p => Except.ok p.sub

/-! ### pkg/crypto/password.go — password hasher

`PasswordHasher.Hash` wraps `bcrypt.GenerateFromPassword`, an external library.
Modelled from the spec: a slow salted hash whose stored value embeds a random
salt (the explicit `salt` argument), such that verification accepts exactly the
original plaintext.  One-wayness is irrelevant to the stated properties and is
not modelled. -/

structure StoredHash where
  salt : Nat
  digest : String
deriving DecidableEq, Repr

def PasswordHasher.Hash (salt : Nat) (password : String) : StoredHash :=
  { salt := salt, digest := password }

/-- password.go `IsValid`: `Compare(hashed, password) == nil`. -/
def PasswordHasher.IsValid (stored : StoredHash) (password : String) : Bool :=
  stored.digest == password

/-! ### internal/domain/user/entity/user.go — user entity -/

structure User where
  ID : String
  Email : String
  Username : String
  Password : StoredHash
  FullName : String
  Role : String
  Status : String
  CreatedAt : Nat
  UpdatedAt : Nat
  DeletedAt : Option Nat
deriving DecidableEq, Repr

/-- entity.NewUser: fresh uuid, given fields, status `"active"`, no tombstone. -/
def NewUser (uuid : String) (now : Nat) (email username : String)
    (password : StoredHash) (fullName role : String) : User :=
  { ID := uuid
  , Email := email
  , Username := username
  , Password := password
  , FullName := fullName
  , Role := role
  , Status := "active"
  , CreatedAt := now
  , UpdatedAt := now
  , DeletedAt := none }

def User.IsActive (u : User) : Bool :=
  u.Status == "active" && u.DeletedAt == none

def User.IsAdmin (u : User) : Bool :=
  u.Role == "admin"

def User.MarkAsDeleted (u : User) (now : Nat) : User :=
  { u with DeletedAt := some now, Status := "inactive", UpdatedAt := now }

def User.UpdateProfile (u : User) (fullName : String) (now : Nat) : User :=
  { u with
    FullName := (if fullName != "" then fullName else u.FullName),
    UpdatedAt := now }

def User.UpdatePassword (u : User) (hashedPassword : StoredHash) (now : Nat) : User :=
  { u with Password := hashedPassword, UpdatedAt := now }

def User.ChangeStatus (u : User) (status : String) (now : Nat) : User :=
  { u with Status := status, UpdatedAt := now }

/-! ### Postgres user repository (repository/postgres_user_repository.go)

The `users` table is a list of rows.  Every query follows its SQL text: reads and
the existence checks filter `deleted_at IS NULL`; `Update` and `Delete` touch only
non-deleted rows and report `ErrUserNotFound` when no row was affected.  Per
migration 000001 the `email` and `username` columns carry *total* UNIQUE
constraints (and `id` is the primary key), so an insert conflicts with
soft-deleted rows as well.  `Option.none` stands for `ErrUserNotFound`. -/

abbrev DB := List User

inductive RepoError
  | userNotFound
deriving DecidableEq, Repr

inductive CreateError
  | uniqueViolation
deriving DecidableEq, Repr

/-- INSERT INTO users (id, email, username, ...) VALUES (...). -/
def PostgresUserRepository.Create (db : DB) (u : User) : Except CreateError DB :=
  if db.any (fun r => r.ID == u.ID || r.Email == u.Email || r.Username == u.Username)
  then Except.error CreateError.uniqueViolation
  else Except.ok (db ++ [u])

/-- SELECT ... FROM users WHERE id = $1 AND deleted_at IS NULL. -/
def PostgresUserRepository.GetByID (db : DB) (id : String) : Option User :=
  db.find? (fun r => r.ID == id && r.DeletedAt == none)

/-- SELECT ... FROM users WHERE email = $1 AND deleted_at IS NULL. -/
def PostgresUserRepository.GetByEmail (db : DB) (email : String) : Option User :=
  db.find? (fun r => r.Email == email && r.DeletedAt == none)

/-- SELECT ... FROM users WHERE username = $1 AND deleted_at IS NULL. -/
def PostgresUserRepository.GetByUsername (db : DB) (username : String) : Option User :=
  db.find? (fun r => r.Username == username && r.DeletedAt == none)

/-- The row image written by UPDATE ... SET email, username, password, full_name,
role, status, updated_at (created_at and deleted_at are not written). -/
def applyUpdateRow (u r : User) : User :=
  { r with
    Email := u.Email,
    Username := u.Username,
    Password := u.Password,
    FullName := u.FullName,
    Role := u.Role,
    Status := u.Status,
    UpdatedAt := u.UpdatedAt }

/-- UPDATE users SET ... WHERE id = $1 AND deleted_at IS NULL;
zero rows affected yields ErrUserNotFound. -/
def PostgresUserRepository.Update (db : DB) (u : User) : Except RepoError DB :=
  if db.any (fun r => r.ID == u.ID && r.DeletedAt == none)
  then Except.ok (db.map (fun r =>
    if r.ID == u.ID && r.DeletedAt == none then applyUpdateRow u r else r))
  else Except.error RepoError.userNotFound

/-- The row image written by the soft delete:
SET deleted_at = NOW(), status = 'inactive', updated_at = NOW(). -/
def deleteRow (now : Nat) (r : User) : User :=
  { r with DeletedAt := some now, Status := "inactive", UpdatedAt := now }

/-- UPDATE users SET deleted_at = NOW(), status = 'inactive', updated_at = NOW()
WHERE id = $1 AND deleted_at IS NULL; zero rows affected yields ErrUserNotFound. -/
def PostgresUserRepository.Delete (db : DB) (id : String) (now : Nat) : Except RepoError DB :=
  if db.any (fun r => r.ID == id && r.DeletedAt == none)
  then Except.ok (db.map (fun r =>
    if r.ID == id && r.DeletedAt == none then deleteRow now r else r))
  else Except.error RepoError.userNotFound

/-- SELECT EXISTS(SELECT 1 FROM users WHERE email = $1 AND deleted_at IS NULL). -/
def PostgresUserRepository.ExistsByEmail (db : DB) (email : String) : Bool :=
  db.any (fun r => r.Email == email && r.DeletedAt == none)

/-- SELECT EXISTS(SELECT 1 FROM users WHERE username = $1 AND deleted_at IS NULL). -/
def PostgresUserRepository.ExistsByUsername (db : DB) (username : String) : Bool :=
  db.any (fun r => r.Username == username && r.DeletedAt == none)

/-- Case-insensitive substring test: SQL `hay ILIKE '%pat%'`. -/
def isInfixChars (pat : List Char) : List Char → Bool
  | [] => pat.isEmpty
  | c :: rest => pat.isPrefixOf (c :: rest) || isInfixChars pat rest

def containsCI (hay pat : String) : Bool :=
  isInfixChars pat.toLower.toList hay.toLower.toList

/-- The optional WHERE clauses of List: search over email/username/full_name
(ILIKE), equality on role and on status, each skipped when the argument is "". -/
def matchesFilters (search role status : String) (r : User) : Bool :=
  (search == "" || containsCI r.Email search || containsCI r.Username search
    || containsCI r.FullName search)
  && (role == "" || r.Role == role)
  && (status == "" || r.Status == status)

/-- Insertion step for ORDER BY created_at DESC. -/
def insertDesc (u : User) : List User → List User
  | [] => [u]
  | v :: rest =>
    if v.CreatedAt ≤ u.CreatedAt then u :: v :: rest else v :: insertDesc u rest

def sortByCreatedDesc : List User → List User
  | [] => []
  | u :: rest => insertDesc u (sortByCreatedDesc rest)

/-- SELECT ... WHERE deleted_at IS NULL [AND filters] ORDER BY created_at DESC
LIMIT pageSize OFFSET (page-1)*pageSize, paired with the COUNT(*) over the same
filters. -/
def PostgresUserRepository.List (db : DB) (page pageSize : Nat)
    (search role status : String) : List User × Nat :=
  let base := db.filter (fun r => r.DeletedAt == none && matchesFilters search role status r)
  (((sortByCreatedDesc base).drop ((page - 1) * pageSize)).take pageSize, base.length)

/-! ### Redis cache (infrastructure/cache), as used by the use case

An association list from string keys to the cached user value; `Set` overwrites,
`Delete` removes.  The use case ignores cache errors, so the operations are total. -/

abbrev Cache := List (String × User)

def cacheGet (c : Cache) (k : String) : Option User :=
  (c.find? (fun p => p.1 == k)).map (fun p => p.2)

def cacheSet (c : Cache) (k : String) (v : User) : Cache :=
  (k, v) :: c.filter (fun p => p.1 != k)

def cacheDelete (c : Cache) (k : String) : Cache :=
  c.filter (fun p => p.1 != k)

/-! ### DTOs (internal/domain/user/dto) -/

structure UserResponse where
  ID : String
  Email : String
  Username : String
  FullName : String
  Role : String
  Status : String
  CreatedAt : Nat
  UpdatedAt : Nat
deriving DecidableEq, Repr

structure LoginResponse where
  User : UserResponse
  AccessToken : TokenString
  RefreshToken : TokenString
  TokenType : String
  ExpiresIn : Nat
deriving DecidableEq, Repr

structure RefreshTokenResponse where
  AccessToken : TokenString
  RefreshToken : TokenString
  TokenType : String
  ExpiresIn : Nat
deriving DecidableEq, Repr

structure RegisterRequest where
  Email : String
  Username : String
  Password : String
  FullName : String
deriving DecidableEq, Repr

/-! ### User use case (internal/domain/user/usecase/user_usecase.go)

Shared error values (internal/shared/errors) become the `UCError` enumeration.
Randomness (uuid, bcrypt salt, jti) and the clock are explicit arguments. -/

inductive UCError
  | internal
  | emailAlreadyExists
  | usernameAlreadyExists
  | invalidCredentials
  | unauthorized
  | invalidToken
  | userNotFound
  | invalidPassword
deriving DecidableEq, Repr

def toUserResponse (u : User) : UserResponse :=
  { ID := u.ID
  , Email := u.Email
  , Username := u.Username
  , FullName := u.FullName
  , Role := u.Role
  , Status := u.Status
  , CreatedAt := u.CreatedAt
  , UpdatedAt := u.UpdatedAt }

/-- Register: existence pre-checks (email then username), hash, create with role
`constants.RoleUser = "user"`.  Any failure of the insert — a unique violation
included — is mapped to `ErrInternal`. -/
def UserUsecase.Register (db : DB) (req : RegisterRequest) (salt : Nat)
    (uuid : String) (now : Nat) : Except UCError (UserResponse × DB) :=
  if PostgresUserRepository.ExistsByEmail db req.Email then
    Except.error UCError.emailAlreadyExists
  else if PostgresUserRepository.ExistsByUsername db req.Username then
    Except.error UCError.usernameAlreadyExists
  else
    match PostgresUserRepository.Create db
      (NewUser uuid now req.Email req.Username
        (PasswordHasher.Hash salt req.Password) req.FullName "user") with
    | Except.error _ => Except.error UCError.internal
    | Except.ok db' =>
      Except.ok
        (toUserResponse
          (NewUser uuid now req.Email req.Username
            (PasswordHasher.Hash salt req.Password) req.FullName "user"), db')

/-- Login: lookup by email (not-found becomes ErrInvalidCredentials), then the
IsActive gate (ErrUnauthorized), then password verification
(ErrInvalidCredentials), then a fresh access/refresh pair. -/
def UserUsecase.Login (m : Manager) (db : DB) (email password : String)
    (now : Nat) (jti1 jti2 : String) : Except UCError LoginResponse :=
  match PostgresUserRepository.GetByEmail db email with
  | none => Except.error UCError.invalidCredentials
  | some user =>
    if user.IsActive = false then Except.error UCError.unauthorized
    else if PasswordHasher.IsValid user.Password password = false then
      Except.error UCError.invalidCredentials
    else
      Except.ok
        { User := toUserResponse user
        , AccessToken := m.GenerateAccessToken user.ID user.Email user.Role now jti1
        , RefreshToken := m.GenerateRefreshToken user.ID now jti2
        , TokenType := "Bearer"
        , ExpiresIn := 900 }

/-- RefreshToken: validate the refresh token (any failure becomes
ErrInvalidToken), re-fetch the user by the embedded subject (not-found becomes
ErrUnauthorized), the IsActive gate, then a brand-new pair. -/
def UserUsecase.RefreshToken (m : Manager) (db : DB) (tokenString : TokenString)
    (now : Nat) (jti1 jti2 : String) : Except UCError RefreshTokenResponse :=
  match m.ValidateRefreshToken now tokenString with
  | Except.error _ => Except.error UCError.invalidToken
  | Except.ok userID =>
    match PostgresUserRepository.GetByID db userID with
    | none => Except.error UCError.unauthorized
    | some user =>
      if user.IsActive = false then Except.error UCError.unauthorized
      else
        Except.ok
          { AccessToken := m.GenerateAccessToken user.ID user.Email user.Role now jti1
          , RefreshToken := m.GenerateRefreshToken user.ID now jti2
          , TokenType := "Bearer"
          , ExpiresIn := 900 }

deriving instance DecidableEq for Except

/-- Outcome of GetProfile, with a trace of which collaborators were consulted. -/
structure ProfileOutcome where
  result : Except UCError UserResponse
  cache : Cache
  storeQueried : Bool
  cacheRead : Bool
deriving DecidableEq, Repr

/-- GetProfile (user_usecase.go lines 176-193).  The Go code computes the cache
key `"user:" + userID` under the comment "Try to get from cache first", but it
performs no cache read: it calls `userRepo.GetByID` unconditionally and then
writes the fetched user into the cache (`cache.Set`, error ignored).  The
`storeQueried` and `cacheRead` fields record the collaborator accesses the code
actually makes. -/
def UserUsecase.GetProfile (db : DB) (c : Cache) (userID : String) : ProfileOutcome :=
  match PostgresUserRepository.GetByID db userID with
  | none =>
    { result := Except.error UCError.userNotFound
    , cache := c
    , storeQueried := true
    , cacheRead := false }
  | some user =>
    { result := Except.ok (toUserResponse user)
    , cache := cacheSet c ("user:" ++ userID) user
    , storeQueried := true
    , cacheRead := false }

/-- UpdateProfile: fetch, entity update, repo update, then delete the cache key. -/
def UserUsecase.UpdateProfile (db : DB) (c : Cache) (userID fullName : String)
    (now : Nat) : Except UCError UserResponse × DB × Cache :=
  match PostgresUserRepository.GetByID db userID with
  | none => (Except.error UCError.userNotFound, db, c)
  | some user =>
    match PostgresUserRepository.Update db (user.UpdateProfile fullName now) with
    | Except.error _ => (Except.error UCError.internal, db, c)
    | Except.ok db' =>
      (Except.ok (toUserResponse (user.UpdateProfile fullName now)), db',
        cacheDelete c ("user:" ++ userID))

/-- DeleteUser: repo soft delete, then delete the cache key. -/
def UserUsecase.DeleteUser (db : DB) (c : Cache) (userID : String) (now : Nat) :
    Except UCError Unit × DB × Cache :=
  match PostgresUserRepository.Delete db userID now with
  | Except.error _ => (Except.error UCError.userNotFound, db, c)
  | Except.ok db' => (Except.ok (), db', cacheDelete c ("user:" ++ userID))

/-- ChangePassword: fetch, verify the old password (ErrInvalidPassword), hash
the new one, repo update. -/
def UserUsecase.ChangePassword (db : DB) (userID oldPassword newPassword : String)
    (salt : Nat) (now : Nat) : Except UCError Unit × DB :=
  match PostgresUserRepository.GetByID db userID with
  | none => (Except.error UCError.userNotFound, db)
  | some user =>
    if PasswordHasher.IsValid user.Password oldPassword = false then
      (Except.error UCError.invalidPassword, db)
    else
      match PostgresUserRepository.Update db
        (user.UpdatePassword (PasswordHasher.Hash salt newPassword) now) with
      | Except.error _ => (Except.error UCError.internal, db)
      | Except.ok db' => (Except.ok (), db')

/-! ### HTTP middleware (delivery/http/middleware) over the gin context

The request context is a key/value list (`c.Set` prepends, `c.GetString` returns
the Go zero value `""` when the key is absent).  Responding and aborting is the
`abort` outcome carrying the HTTP status; `proceed` hands the enriched context to
the rest of the chain.  JWT wire decoding (the base64 parse done by the jwt
library) is the `dec` argument. -/

abbrev Ctx := List (String × String)

def ctxGetString (ctx : Ctx) (k : String) : String :=
  match ctx.find? (fun p => p.1 == k) with
  | some p => p.2
  | none => ""

def ctxSet (ctx : Ctx) (k v : String) : Ctx :=
  (k, v) :: ctx

inductive Outcome
  | abort (status : Nat) (message : String)
  | proceed (ctx : Ctx)
deriving DecidableEq, Repr

/-- Splits a character list at the first space, when there is one. -/
def breakAtSpace : List Char → Option (List Char × List Char)
  | [] => none
  | c :: rest =>
    if c = ' ' then some ([], rest)
    else (breakAtSpace rest).map (fun p => (c :: p.1, p.2))

/-- Go `strings.SplitN(s, " ", 2)`: the part before the first space and the
remainder, or the whole string when it contains no space. -/
def splitN2Space (s : String) : List String :=
  match breakAtSpace s.toList with
  | none => [s]
  | some (a, b) => [String.mk a, String.mk b]

/-- AuthMiddleware: missing header, non-Bearer shape, and failed validation each
abort with 401; success stores user id, email, and role in the context and
continues. -/
def AuthMiddleware (m : Manager) (dec : String → TokenString) (now : Nat)
    (ctx : Ctx) (authHeader : String) : Outcome :=
  if authHeader == "" then Outcome.abort 401 "Authorization header is required"
  else
    match splitN2Space authHeader with
    | [scheme, tokenStr] =>
      if scheme ≠ "Bearer" then Outcome.abort 401 "Invalid authorization header format"
      else
        match m.ValidateAccessToken now (dec tokenStr) with
        | Except.error _ => Outcome.abort 401 "Invalid or expired token"
        | Except.ok claims =>
          Outcome.proceed
            (ctxSet (ctxSet (ctxSet ctx "user_id" claims.UserID)
              "user_email" claims.Email) "user_role" claims.Role)
    | _ => Outcome.abort 401 "Invalid authorization header format"

/-- RequireRole: an empty role aborts 401; a role outside the allowed set aborts
403; otherwise the request continues. -/
def RequireRole (roles : List String) (ctx : Ctx) : Outcome :=
  if ctxGetString ctx "user_role" == "" then Outcome.abort 401 "Unauthorized"
  else if roles.contains (ctxGetString ctx "user_role") then Outcome.proceed ctx
  else Outcome.abort 403 "Insufficient permissions"

/-- Chaining a middleware outcome with the downstream handler: an abort responds
itself and the handler never runs. -/
def runHandler (o : Outcome) (handler : Ctx → Nat × String) : Nat × String :=
  match o with
  | Outcome.abort status message => (status, message)
  | Outcome.proceed ctx => handler ctx

/-! ### Concrete fixtures used by witnesses and counterexamples -/

def mgr0 : Manager :=
  { secretKey := "secret", accessTokenDuration := 900, refreshTokenDuration := 604800 }

/-- An active, non-deleted user. -/
def alice : User :=
  { ID := "u1"
  , Email := "a@x.com"
  , Username := "alice"
  , Password := PasswordHasher.Hash 1 "Abcdef1!"
  , FullName := "Alice A"
  , Role := "user"
  , Status := "active"
  , CreatedAt := 10
  , UpdatedAt := 10
  , DeletedAt := none }

/-- A stale cached copy of alice (differs in full name). -/
def aliceStale : User := { alice with FullName := "Old Name" }

/-- A record whose Status field still reads "active" but whose DeletedAt is set. -/
def bobTombstoned : User :=
  { ID := "u2"
  , Email := "b@x.com"
  , Username := "bob"
  , Password := PasswordHasher.Hash 2 "Abcdef1!"
  , FullName := "Bob B"
  , Role := "user"
  , Status := "active"
  , CreatedAt := 10
  , UpdatedAt := 10
  , DeletedAt := some 5 }

/-- A soft-deleted row: invisible to the existence pre-checks, but still holding
its email and username under the table's total unique constraints. -/
def carolDeleted : User :=
  { ID := "u3"
  , Email := "c@x.com"
  , Username := "carol"
  , Password := PasswordHasher.Hash 3 "Abcdef1!"
  , FullName := "Carol C"
  , Role := "user"
  , Status := "inactive"
  , CreatedAt := 1
  , UpdatedAt := 5
  , DeletedAt := some 5 }

/-! ### Helper lemmas -/

theorem isActive_iff (u : User) :
    u.IsActive = true ↔ u.Status = "active" ∧ u.DeletedAt = none := by
  simp [User.IsActive, Bool.and_eq_true, beq_iff_eq]

theorem deleteRow_eq_markAsDeleted (u : User) (now : Nat) :
    deleteRow now u = u.MarkAsDeleted now := rfl

theorem mem_insertDesc (a u : User) (l : List User) :
    a ∈ insertDesc u l ↔ a = u ∨ a ∈ l := by
  induction l with
  | nil => simp [insertDesc]
  | cons v rest ih =>
    by_cases h : v.CreatedAt ≤ u.CreatedAt
    · simp [insertDesc, h]
    · simp [insertDesc, h, ih]
      tauto

theorem mem_sortByCreatedDesc (a : User) (l : List User) :
    a ∈ sortByCreatedDesc l ↔ a ∈ l := by
  induction l with
  | nil => simp [sortByCreatedDesc]
  | cons v rest ih => simp [sortByCreatedDesc, mem_insertDesc, ih]

/-! ### Claim C9 — password hashing round-trip -/

/-- Claim C9: for every password p, verify(hash(p), p) succeeds; for every
plaintext q different from p, verify(hash(p), q) fails; and two hash calls on
the same plaintext (distinct random salts) produce different stored values,
each of which independently verifies against p. -/
theorem c9_hash_verify (p q : String) (salt s1 s2 : Nat) :
    PasswordHasher.IsValid (PasswordHasher.Hash salt p) p = true
    ∧ (q ≠ p → PasswordHasher.IsValid (PasswordHasher.Hash salt p) q = false)
    ∧ (s1 ≠ s2 →
        PasswordHasher.Hash s1 p ≠ PasswordHasher.Hash s2 p
        ∧ PasswordHasher.IsValid (PasswordHasher.Hash s1 p) p = true
        ∧ PasswordHasher.IsValid (PasswordHasher.Hash s2 p) p = true) := by
  refine ⟨?_, fun hq => ?_, fun hs => ⟨fun hcontra => ?_, ?_, ?_⟩⟩
  · simp [PasswordHasher.IsValid, PasswordHasher.Hash]
  · simp [PasswordHasher.IsValid, PasswordHasher.Hash]
    exact fun h => hq h.symm
  · exact hs (congrArg StoredHash.salt hcontra)
  · simp [PasswordHasher.IsValid, PasswordHasher.Hash]
  · simp [PasswordHasher.IsValid, PasswordHasher.Hash]

/-- Witness for C9 at p = "Abcdef1!", q = "wrong", salts 1 and 2. -/
theorem c9_hash_verify_witness :
    ("wrong" ≠ "Abcdef1!" ∧ (1 : Nat) ≠ 2)
    ∧ PasswordHasher.IsValid (PasswordHasher.Hash 1 "Abcdef1!") "Abcdef1!" = true
    ∧ PasswordHasher.IsValid (PasswordHasher.Hash 1 "Abcdef1!") "wrong" = false
    ∧ PasswordHasher.Hash 1 "Abcdef1!" ≠ PasswordHasher.Hash 2 "Abcdef1!"
    ∧ PasswordHasher.IsValid (PasswordHasher.Hash 2 "Abcdef1!") "Abcdef1!" = true := by
  have h := c9_hash_verify "Abcdef1!" "wrong" 1 1 2
  exact ⟨⟨by decide, by decide⟩, h.1, h.2.1 (by decide),
    (h.2.2 (by decide)).1, (h.2.2 (by decide)).2.2⟩

/-! ### Claim C4 — ValidateAccessToken error partition -/

/-- Claim C4: ValidateAccessToken partitions failures into exactly two kinds.
A malformed token, a non-HMAC algorithm, and a wrong signing key each yield the
invalid-token error; a token with a valid HMAC signature whose expiry has passed
yields the expired-token error; otherwise the typed claims are returned.  The
two error kinds are distinct values of the two-element error type. -/
theorem c4_validate_access_token_partition (m : Manager) (now : Nat) :
    (∀ raw, m.ValidateAccessToken now (TokenString.malformed raw)
      = Except.error TokenError.invalidToken)
    ∧ (∀ tok : SignedToken, tok.alg.isHMAC = false →
        m.ValidateAccessToken now (TokenString.signed tok)
          = Except.error TokenError.invalidToken)
    ∧ (∀ tok : SignedToken, tok.alg.isHMAC = true → tok.key ≠ m.secretKey →
        m.ValidateAccessToken now (TokenString.signed tok)
          = Except.error TokenError.invalidToken)
    ∧ (∀ tok : SignedToken, tok.alg.isHMAC = true → tok.key = m.secretKey →
        tok.payload.exp ≤ now →
        m.ValidateAccessToken now (TokenString.signed tok)
          = Except.error TokenError.expiredToken)
    ∧ (∀ tok : SignedToken, tok.alg.isHMAC = true → tok.key = m.secretKey →
        now < tok.payload.exp → tok.payload.nbf ≤ now →
        m.ValidateAccessToken now (TokenString.signed tok)
          = Except.ok (payloadToClaims tok.payload))
    ∧ TokenError.invalidToken ≠ TokenError.expiredToken := by
  refine ⟨fun raw => rfl, fun tok h => ?_, fun tok h hk => ?_,
    fun tok h hk hexp => ?_, fun tok h hk hexp hnbf => ?_, by decide⟩
  · simp [Manager.ValidateAccessToken, parseWithClaimsHMAC, h]
  · simp [Manager.ValidateAccessToken, parseWithClaimsHMAC, h, hk]
  · simp [Manager.ValidateAccessToken, parseWithClaimsHMAC, h, hk, hexp]
  · simp [Manager.ValidateAccessToken, parseWithClaimsHMAC, h, hk,
      Nat.not_le.mpr hexp, Nat.not_lt.mpr hnbf]

/-- Witness for C4: a well-signed but expired token maps to the expired error,
and a wrong-key token maps to the invalid error, at concrete inputs. -/
theorem c4_validate_access_token_partition_witness :
    (Alg.HS256.isHMAC = true ∧ "secret" = mgr0.secretKey ∧ (500 : Nat) ≤ 1000
      ∧ "other" ≠ mgr0.secretKey)
    ∧ mgr0.ValidateAccessToken 1000
        (TokenString.signed
          ⟨Alg.HS256, ⟨some "u1", some "a@x.com", some "user", "j", "u1", 0, 500, 0⟩, "secret"⟩)
      = Except.error TokenError.expiredToken
    ∧ mgr0.ValidateAccessToken 1000
        (TokenString.signed
          ⟨Alg.HS256, ⟨some "u1", some "a@x.com", some "user", "j", "u1", 0, 5000, 0⟩, "other"⟩)
      = Except.error TokenError.invalidToken := by
  have h := c4_validate_access_token_partition mgr0 1000
  refine ⟨⟨rfl, rfl, by decide, by decide⟩, ?_, ?_⟩
  · exact h.2.2.2.1 _ rfl rfl (by decide)
  · exact h.2.2.1 _ rfl (by decide)

/-! ### Claim C1 — refresh flow on an access token

The claim is false on the code: both token kinds are HS256 JWTs under the same
secret, and decoding into `jwt.RegisteredClaims` ignores the extra access-claim
keys, so an unexpired access token passes `ValidateRefreshToken` and the refresh
flow succeeds. -/

/-- Counterexample to C1: an access token just issued by GenerateAccessToken is
accepted by ValidateRefreshToken (returning its subject) instead of failing with
the invalid-token error, and the use-case refresh flow on it succeeds with a new
token pair. -/
theorem c1_counterexample :
    mgr0.ValidateRefreshToken 10 (mgr0.GenerateAccessToken "u1" "a@x.com" "user" 10 "jtiA")
      = Except.ok "u1"
    ∧ mgr0.ValidateRefreshToken 10 (mgr0.GenerateAccessToken "u1" "a@x.com" "user" 10 "jtiA")
      ≠ Except.error TokenError.invalidToken
    ∧ UserUsecase.RefreshToken mgr0 [alice]
        (mgr0.GenerateAccessToken "u1" "a@x.com" "user" 10 "jtiA") 10 "jtiB" "jtiC"
      = Except.ok
          { AccessToken := mgr0.GenerateAccessToken "u1" "a@x.com" "user" 10 "jtiB"
          , RefreshToken := mgr0.GenerateRefreshToken "u1" 10 "jtiC"
          , TokenType := "Bearer"
          , ExpiresIn := 900 } := by
  refine ⟨by decide, by decide, by decide⟩

/-- Claim C1 as amended: for every unexpired access token produced by
GenerateAccessToken, ValidateRefreshToken succeeds and returns the embedded
subject (the structurally larger claim set is accepted when decoding registered
claims), and UserUsecase.RefreshToken on that access token succeeds with a fresh
token pair whenever the subject resolves to an active user. -/
theorem c1_amended_access_token_accepted_by_refresh (m : Manager)
    (uid email role jti jti1 jti2 : String) (now now' : Nat) (db : DB) (u : User)
    (hnbf : now ≤ now') (hexp : now' < now + m.accessTokenDuration)
    (hget : PostgresUserRepository.GetByID db uid = some u)
    (hact : u.IsActive = true) :
    m.ValidateRefreshToken now' (m.GenerateAccessToken uid email role now jti)
      = Except.ok uid
    ∧ UserUsecase.RefreshToken m db (m.GenerateAccessToken uid email role now jti)
        now' jti1 jti2
      = Except.ok
          { AccessToken := m.GenerateAccessToken u.ID u.Email u.Role now' jti1
          , RefreshToken := m.GenerateRefreshToken u.ID now' jti2
          , TokenType := "Bearer"
          , ExpiresIn := 900 } := by
  have hval : m.ValidateRefreshToken now' (m.GenerateAccessToken uid email role now jti)
      = Except.ok uid := by
    simp [Manager.ValidateRefreshToken, Manager.GenerateAccessToken, parseWithClaimsHMAC,
      Alg.isHMAC, Nat.not_le.mpr hexp, Nat.not_lt.mpr hnbf]
  refine ⟨hval, ?_⟩
  simp [UserUsecase.RefreshToken, hval, hget, hact]

/-- Witness for the amended C1 at concrete inputs. -/
theorem c1_amended_witness :
    ((10 : Nat) ≤ 20 ∧ (20 : Nat) < 10 + mgr0.accessTokenDuration
      ∧ PostgresUserRepository.GetByID [alice] "u1" = some alice
      ∧ alice.IsActive = true)
    ∧ mgr0.ValidateRefreshToken 20 (mgr0.GenerateAccessToken "u1" "a@x.com" "user" 10 "jA")
      = Except.ok "u1"
    ∧ UserUsecase.RefreshToken mgr0 [alice]
        (mgr0.GenerateAccessToken "u1" "a@x.com" "user" 10 "jA") 20 "jB" "jC"
      = Except.ok
          { AccessToken := mgr0.GenerateAccessToken alice.ID alice.Email alice.Role 20 "jB"
          , RefreshToken := mgr0.GenerateRefreshToken alice.ID 20 "jC"
          , TokenType := "Bearer"
          , ExpiresIn := 900 } := by
  have h := c1_amended_access_token_accepted_by_refresh mgr0 "u1" "a@x.com" "user"
    "jA" "jB" "jC" 10 20 [alice] alice (by decide) (by decide) (by decide) (by decide)
  exact ⟨⟨by decide, by decide, by decide, by decide⟩, h.1, h.2⟩

/-! ### Claim C3 — Login error routing -/

/-- Claim C3: Login returns invalid-credentials when no user holds the email;
unauthorized when the user is found but not active; invalid-credentials (the
same value as the not-found case) when the user is found, active, and password
verification fails; and otherwise the user plus a freshly issued access and
refresh token pair.  The checks run in the code's order: lookup, activity,
password. -/
theorem c3_login_cases (m : Manager) (db : DB) (email password : String)
    (now : Nat) (jti1 jti2 : String) :
    (PostgresUserRepository.GetByEmail db email = none →
      UserUsecase.Login m db email password now jti1 jti2
        = Except.error UCError.invalidCredentials)
    ∧ (∀ u, PostgresUserRepository.GetByEmail db email = some u →
        u.IsActive = false →
        UserUsecase.Login m db email password now jti1 jti2
          = Except.error UCError.unauthorized)
    ∧ (∀ u, PostgresUserRepository.GetByEmail db email = some u →
        u.IsActive = true → PasswordHasher.IsValid u.Password password = false →
        UserUsecase.Login m db email password now jti1 jti2
          = Except.error UCError.invalidCredentials)
    ∧ (∀ u, PostgresUserRepository.GetByEmail db email = some u →
        u.IsActive = true → PasswordHasher.IsValid u.Password password = true →
        UserUsecase.Login m db email password now jti1 jti2
          = Except.ok
              { User := toUserResponse u
              , AccessToken := m.GenerateAccessToken u.ID u.Email u.Role now jti1
              , RefreshToken := m.GenerateRefreshToken u.ID now jti2
              , TokenType := "Bearer"
              , ExpiresIn := 900 })
    ∧ UCError.invalidCredentials ≠ UCError.unauthorized := by
  refine ⟨fun h => ?_, fun u h hact => ?_, fun u h hact hpw => ?_,
    fun u h hact hpw => ?_, by decide⟩
  · simp [UserUsecase.Login, h]
  · simp [UserUsecase.Login, h, hact]
  · simp [UserUsecase.Login, h, hact, hpw]
  · simp [UserUsecase.Login, h, hact, hpw]

/-- Witness for C3: the wrong-password and success cases at concrete inputs. -/
theorem c3_login_cases_witness :
    (PostgresUserRepository.GetByEmail [alice] "a@x.com" = some alice
      ∧ alice.IsActive = true
      ∧ PasswordHasher.IsValid alice.Password "wrong" = false
      ∧ PasswordHasher.IsValid alice.Password "Abcdef1!" = true)
    ∧ UserUsecase.Login mgr0 [alice] "a@x.com" "wrong" 100 "j1" "j2"
      = Except.error UCError.invalidCredentials
    ∧ UserUsecase.Login mgr0 [alice] "a@x.com" "Abcdef1!" 100 "j1" "j2"
      = Except.ok
          { User := toUserResponse alice
          , AccessToken := mgr0.GenerateAccessToken alice.ID alice.Email alice.Role 100 "j1"
          , RefreshToken := mgr0.GenerateRefreshToken alice.ID 100 "j2"
          , TokenType := "Bearer"
          , ExpiresIn := 900 }
    ∧ UserUsecase.Login mgr0 [] "a@x.com" "Abcdef1!" 100 "j1" "j2"
      = Except.error UCError.invalidCredentials := by
  have h1 := (c3_login_cases mgr0 [alice] "a@x.com" "wrong" 100 "j1" "j2").2.2.1
    alice (by decide) (by decide) (by decide)
  have h2 := (c3_login_cases mgr0 [alice] "a@x.com" "Abcdef1!" 100 "j1" "j2").2.2.2.1
    alice (by decide) (by decide) (by decide)
  have h3 := (c3_login_cases mgr0 [] "a@x.com" "Abcdef1!" 100 "j1" "j2").1 (by decide)
  exact ⟨⟨by decide, by decide, by decide, by decide⟩, h1, h2, h3⟩

/-! ### Claim C10 — authentication requires Status active AND DeletedAt nil

The only-if direction holds for both operations.  The claim's "in particular"
clause is wrong for Login: the store's email lookup filters soft-deleted rows,
so a record with Status "active" but DeletedAt set is reported not-found and
Login answers invalid-credentials, not unauthorized.  RefreshToken's id lookup
filters the same way, and its not-found branch does answer unauthorized. -/

/-- Counterexample to C10: a record whose Status reads "active" but whose
DeletedAt is set is rejected by Login with the invalid-credentials error, which
is not the unauthorized error the claim names. -/
theorem c10_counterexample :
    bobTombstoned.Status = "active" ∧ bobTombstoned.DeletedAt = some 5
    ∧ UserUsecase.Login mgr0 [bobTombstoned] "b@x.com" "Abcdef1!" 100 "j1" "j2"
      = Except.error UCError.invalidCredentials
    ∧ Except.error (ε := UCError) (α := LoginResponse) UCError.invalidCredentials
      ≠ Except.error UCError.unauthorized := by
  refine ⟨rfl, rfl, by decide, by decide⟩

/-- Claim C10 as amended: Login and RefreshToken succeed only on a stored record
with Status "active" and DeletedAt nil; a record with Status "active" but
DeletedAt set is rejected by both operations — by RefreshToken with the
unauthorized error, and by Login with the invalid-credentials error, because the
store lookups filter soft-deleted rows and report the user as absent. -/
theorem c10_amended_active_and_not_deleted (m : Manager) (db : DB)
    (email password uid : String) (tok : TokenString) (now : Nat) (jti1 jti2 : String) :
    (∀ resp, UserUsecase.Login m db email password now jti1 jti2 = Except.ok resp →
      ∃ u, PostgresUserRepository.GetByEmail db email = some u
        ∧ u.Status = "active" ∧ u.DeletedAt = none)
    ∧ (∀ resp, UserUsecase.RefreshToken m db tok now jti1 jti2 = Except.ok resp →
        ∃ uid' u, m.ValidateRefreshToken now tok = Except.ok uid'
          ∧ PostgresUserRepository.GetByID db uid' = some u
          ∧ u.Status = "active" ∧ u.DeletedAt = none)
    ∧ ((∀ v ∈ db, v.Email = email → v.DeletedAt ≠ none) →
        UserUsecase.Login m db email password now jti1 jti2
          = Except.error UCError.invalidCredentials)
    ∧ (m.ValidateRefreshToken now tok = Except.ok uid →
        (∀ v ∈ db, v.ID = uid → v.DeletedAt ≠ none) →
        UserUsecase.RefreshToken m db tok now jti1 jti2
          = Except.error UCError.unauthorized) := by
  refine ⟨fun resp hok => ?_, fun resp hok => ?_, fun hall => ?_, fun hval hall => ?_⟩
  · unfold UserUsecase.Login at hok
    cases hfind : PostgresUserRepository.GetByEmail db email with
    | none => simp [hfind] at hok
    | some u =>
      refine ⟨u, rfl, ?_⟩
      rw [hfind] at hok
      by_cases hact : u.IsActive = true
      · exact (isActive_iff u).mp hact
      · simp [eq_false_of_ne_true hact] at hok
  · unfold UserUsecase.RefreshToken at hok
    split at hok
    · simp at hok
    · rename_i uid' hval2
      split at hok
      · simp at hok
      · rename_i u hfind
        split at hok
        · simp at hok
        · rename_i hcond
          have hact : u.IsActive = true := by
            cases hIA : u.IsActive
            · exact absurd hIA hcond
            · rfl
          exact ⟨uid', u, hval2, hfind, (isActive_iff u).mp hact⟩
  · have hfind : PostgresUserRepository.GetByEmail db email = none := by
      unfold PostgresUserRepository.GetByEmail
      rw [List.find?_eq_none]
      intro v hv
      simp only [Bool.and_eq_true, beq_iff_eq, not_and]
      intro he hd
      exact absurd hd (hall v hv he)
    simp [UserUsecase.Login, hfind]
  · have hfind : PostgresUserRepository.GetByID db uid = none := by
      unfold PostgresUserRepository.GetByID
      rw [List.find?_eq_none]
      intro v hv
      simp only [Bool.and_eq_true, beq_iff_eq, not_and]
      intro he hd
      exact absurd hd (hall v hv he)
    simp [UserUsecase.RefreshToken, hval, hfind]

/-- Witness for the amended C10 on the tombstoned record. -/
theorem c10_amended_witness :
    ((∀ v ∈ [bobTombstoned], v.Email = "b@x.com" → v.DeletedAt ≠ none)
      ∧ mgr0.ValidateRefreshToken 20 (mgr0.GenerateRefreshToken "u2" 10 "jR")
        = Except.ok "u2"
      ∧ (∀ v ∈ [bobTombstoned], v.ID = "u2" → v.DeletedAt ≠ none))
    ∧ UserUsecase.Login mgr0 [bobTombstoned] "b@x.com" "Abcdef1!" 20 "j1" "j2"
      = Except.error UCError.invalidCredentials
    ∧ UserUsecase.RefreshToken mgr0 [bobTombstoned]
        (mgr0.GenerateRefreshToken "u2" 10 "jR") 20 "j1" "j2"
      = Except.error UCError.unauthorized := by
  have h := c10_amended_active_and_not_deleted mgr0 [bobTombstoned] "b@x.com"
    "Abcdef1!" "u2" (mgr0.GenerateRefreshToken "u2" 10 "jR") 20 "j1" "j2"
  exact ⟨⟨by decide, by decide, by decide⟩,
    h.2.2.1 (by decide), h.2.2.2 (by decide) (by decide)⟩

/-! ### Claim C5 — auth middleware gating -/

/-- Claim C5: a missing Authorization header, a header not of the form
"Bearer token", or a token failing ValidateAccessToken each make the middleware
abort with 401, and an aborted outcome answers the request itself — the
downstream handler never runs (the response is the same whatever the handler
is).  On validation success the middleware stores the claims' user id, email,
and role under the request-context keys and proceeds to the handler. -/
theorem c5_auth_middleware_gate (m : Manager) (dec : String → TokenString)
    (now : Nat) (ctx : Ctx) (authHeader : String) :
    (authHeader = "" →
      AuthMiddleware m dec now ctx authHeader
        = Outcome.abort 401 "Authorization header is required")
    ∧ (∀ a, authHeader ≠ "" → splitN2Space authHeader = [a] →
        AuthMiddleware m dec now ctx authHeader
          = Outcome.abort 401 "Invalid authorization header format")
    ∧ (∀ scheme tokenStr, authHeader ≠ "" →
        splitN2Space authHeader = [scheme, tokenStr] → scheme ≠ "Bearer" →
        AuthMiddleware m dec now ctx authHeader
          = Outcome.abort 401 "Invalid authorization header format")
    ∧ (∀ tokenStr e, authHeader ≠ "" →
        splitN2Space authHeader = ["Bearer", tokenStr] →
        m.ValidateAccessToken now (dec tokenStr) = Except.error e →
        AuthMiddleware m dec now ctx authHeader
          = Outcome.abort 401 "Invalid or expired token")
    ∧ (∀ tokenStr claims, authHeader ≠ "" →
        splitN2Space authHeader = ["Bearer", tokenStr] →
        m.ValidateAccessToken now (dec tokenStr) = Except.ok claims →
        AuthMiddleware m dec now ctx authHeader
          = Outcome.proceed (ctxSet (ctxSet (ctxSet ctx "user_id" claims.UserID)
              "user_email" claims.Email) "user_role" claims.Role)
        ∧ ctxGetString (ctxSet (ctxSet (ctxSet ctx "user_id" claims.UserID)
            "user_email" claims.Email) "user_role" claims.Role) "user_id" = claims.UserID
        ∧ ctxGetString (ctxSet (ctxSet (ctxSet ctx "user_id" claims.UserID)
            "user_email" claims.Email) "user_role" claims.Role) "user_email" = claims.Email
        ∧ ctxGetString (ctxSet (ctxSet (ctxSet ctx "user_id" claims.UserID)
            "user_email" claims.Email) "user_role" claims.Role) "user_role" = claims.Role)
    ∧ (∀ status message h1 h2,
        AuthMiddleware m dec now ctx authHeader = Outcome.abort status message →
        runHandler (AuthMiddleware m dec now ctx authHeader) h1 = (status, message)
        ∧ runHandler (AuthMiddleware m dec now ctx authHeader) h1
          = runHandler (AuthMiddleware m dec now ctx authHeader) h2) := by
  refine ⟨fun h => ?_, fun a hne hsplit => ?_, fun scheme tokenStr hne hsplit hs => ?_,
    fun tokenStr e hne hsplit hval => ?_, fun tokenStr claims hne hsplit hval => ?_,
    fun status message h1 h2 habort => ?_⟩
  · simp [AuthMiddleware, h]
  · simp [AuthMiddleware, hne, hsplit]
  · simp [AuthMiddleware, hne, hsplit, hs]
  · simp [AuthMiddleware, hne, hsplit, hval]
  · refine ⟨by simp [AuthMiddleware, hne, hsplit, hval], ?_, ?_, ?_⟩
    · simp [ctxGetString, ctxSet, List.find?]
    · simp [ctxGetString, ctxSet, List.find?]
    · simp [ctxGetString, ctxSet, List.find?]
  · rw [habort]
    exact ⟨rfl, rfl⟩

/-- Witness for C5: the success path at concrete inputs — the header
"Bearer t", a decoder yielding a valid signed token, and the resulting context. -/
theorem c5_auth_middleware_gate_witness :
    (("Bearer t" : String) ≠ ""
      ∧ splitN2Space "Bearer t" = ["Bearer", "t"]
      ∧ mgr0.ValidateAccessToken 100
          ((fun _ => mgr0.GenerateAccessToken "u1" "a@x.com" "user" 100 "jW") "t")
        = Except.ok (payloadToClaims
            ⟨some "u1", some "a@x.com", some "user", "jW", "u1", 100, 100 + 900, 100⟩))
    ∧ AuthMiddleware mgr0 (fun _ => mgr0.GenerateAccessToken "u1" "a@x.com" "user" 100 "jW")
        100 [] "Bearer t"
      = Outcome.proceed [("user_role", "user"), ("user_email", "a@x.com"), ("user_id", "u1")] := by
  have h := (c5_auth_middleware_gate mgr0
    (fun _ => mgr0.GenerateAccessToken "u1" "a@x.com" "user" 100 "jW") 100 [] "Bearer t").2.2.2.2.1
    "t" (payloadToClaims ⟨some "u1", some "a@x.com", some "user", "jW", "u1", 100, 100 + 900, 100⟩)
    (by decide) (by decide) (by decide)
  exact ⟨⟨by decide, by decide, by decide⟩, h.1⟩

/-! ### Claim C6 — role gate

The claim's universal sentence fails on one reachable input: when the
request-scoped role is the empty string (gin's zero value, e.g. a validated
token whose role claim is empty or a gate mounted without the auth middleware),
the gate answers 401 unauthorized, not 403 forbidden, even though the role is
not a member of the allowed set. -/

/-- Counterexample to C6: with the context role set to the empty string — not a
member of the admin-only set — the gate aborts 401 "Unauthorized" rather than
the forbidden outcome the claim requires for every non-member role. -/
theorem c6_counterexample :
    (["admin"] : List String).contains "" = false
    ∧ RequireRole ["admin"] [("user_role", ""), ("user_email", "a@x.com"), ("user_id", "u1")]
      = Outcome.abort 401 "Unauthorized"
    ∧ Outcome.abort 401 "Unauthorized" ≠ Outcome.abort 403 "Insufficient permissions" := by
  refine ⟨by decide, by decide, by decide⟩

/-- Claim C6 as amended: if the request-scoped role is empty or unset the gate
answers 401 unauthorized; if it is nonempty and not a member of the allowed set
the gate answers 403 forbidden (a distinct outcome) and the request aborts; if
it is a member the request proceeds.  In particular a request whose context role
is "user" is rejected forbidden by an admin-only gate and accepted by a gate
allowing "user". -/
theorem c6_amended_role_gate (roles : List String) (ctx : Ctx) :
    (ctxGetString ctx "user_role" = "" →
      RequireRole roles ctx = Outcome.abort 401 "Unauthorized")
    ∧ (ctxGetString ctx "user_role" ≠ "" →
        roles.contains (ctxGetString ctx "user_role") = false →
        RequireRole roles ctx = Outcome.abort 403 "Insufficient permissions")
    ∧ (ctxGetString ctx "user_role" ≠ "" →
        roles.contains (ctxGetString ctx "user_role") = true →
        RequireRole roles ctx = Outcome.proceed ctx)
    ∧ Outcome.abort 403 "Insufficient permissions" ≠ Outcome.abort 401 "Unauthorized"
    ∧ RequireRole ["admin"] (ctxSet ctx "user_role" "user")
      = Outcome.abort 403 "Insufficient permissions"
    ∧ RequireRole ["user"] (ctxSet ctx "user_role" "user")
      = Outcome.proceed (ctxSet ctx "user_role" "user") := by
  refine ⟨fun h => ?_, fun hne hmem => ?_, fun hne hmem => ?_, by decide, ?_, ?_⟩
  · simp [RequireRole, h]
  · have hmem' : ctxGetString ctx "user_role" ∉ roles := by simpa using hmem
    simp [RequireRole, hne, hmem']
  · have hmem' : ctxGetString ctx "user_role" ∈ roles := by simpa using hmem
    simp [RequireRole, hne, hmem']
  · simp [RequireRole, ctxGetString, ctxSet, List.find?]
  · simp [RequireRole, ctxGetString, ctxSet, List.find?]

/-- Witness for the amended C6 on a concrete admin-only gate and user-role context. -/
theorem c6_amended_witness :
    (ctxGetString [("user_role", "user")] "user_role" ≠ ""
      ∧ (["admin"] : List String).contains (ctxGetString [("user_role", "user")] "user_role")
        = false
      ∧ (["user"] : List String).contains (ctxGetString [("user_role", "user")] "user_role")
        = true)
    ∧ RequireRole ["admin"] [("user_role", "user")]
      = Outcome.abort 403 "Insufficient permissions"
    ∧ RequireRole ["user"] [("user_role", "user")]
      = Outcome.proceed [("user_role", "user")] := by
  have h1 := (c6_amended_role_gate ["admin"] [("user_role", "user")]).2.1
    (by decide) (by decide)
  have h2 := (c6_amended_role_gate ["user"] [("user_role", "user")]).2.2.1
    (by decide) (by decide)
  exact ⟨⟨by decide, by decide, by decide⟩, h1, h2⟩

/-! ### Claim C2 — profile read-through cache

The code contradicts its own comment ("Try to get from cache first"): GetProfile
performs no cache read.  It queries the user store on every call — a populated
cache entry included — and then (re)writes the cache.  The invalidation half of
the claim does hold: UpdateProfile and DeleteUser delete the key. -/

/-- Claim C2, evaluated at the failing input: the cache already holds the key
"user:u1" (a stale copy), yet GetProfile queries the store, never reads the
cache, and returns the store's value, not the cached one.  The deletion half of
the claim holds: after UpdateProfile and after DeleteUser the key is gone. -/
theorem c2_get_profile_never_reads_cache :
    cacheGet [("user:u1", aliceStale)] "user:u1" = some aliceStale
    ∧ UserUsecase.GetProfile [alice] [("user:u1", aliceStale)] "u1"
      = { result := Except.ok (toUserResponse alice)
        , cache := cacheSet [("user:u1", aliceStale)] "user:u1" alice
        , storeQueried := true
        , cacheRead := false }
    ∧ toUserResponse alice ≠ toUserResponse aliceStale
    ∧ cacheGet
        (UserUsecase.UpdateProfile [alice] [("user:u1", aliceStale)] "u1" "New Name" 50).2.2
        "user:u1" = none
    ∧ cacheGet
        (UserUsecase.DeleteUser [alice] [("user:u1", aliceStale)] "u1" 50).2.2
        "user:u1" = none := by
  refine ⟨by decide, by decide, by decide, by decide, by decide⟩

/-! ### Claim C7 — unique violation on insert

Register maps every failure of the insert to ErrInternal (user_usecase.go lines
72-75; the repository's Create only wraps the driver error).  The migration's
UNIQUE constraints are total, so a soft-deleted row holding the email passes the
pre-checks yet makes the insert violate uniqueness — the same storage outcome a
racing duplicate produces. -/

/-- Counterexample to C7: both pre-checks pass (the conflicting row is
soft-deleted), the insert hits the unique-constraint violation, and Register
answers the generic internal error, not the already-exists conflict. -/
theorem c7_counterexample :
    PostgresUserRepository.ExistsByEmail [carolDeleted] "c@x.com" = false
    ∧ PostgresUserRepository.ExistsByUsername [carolDeleted] "newcarol" = false
    ∧ PostgresUserRepository.Create [carolDeleted]
        (NewUser "u9" 100 "c@x.com" "newcarol" (PasswordHasher.Hash 7 "Abcdef1!")
          "Carol New" "user")
      = Except.error CreateError.uniqueViolation
    ∧ UserUsecase.Register [carolDeleted]
        { Email := "c@x.com", Username := "newcarol"
        , Password := "Abcdef1!", FullName := "Carol New" } 7 "u9" 100
      = Except.error UCError.internal
    ∧ Except.error (ε := UCError) (α := UserResponse × DB) UCError.internal
      ≠ Except.error UCError.emailAlreadyExists := by
  refine ⟨by decide, by decide, by decide, by decide, by decide⟩

/-- Claim C7 as amended: when the duplicate pre-checks pass but the insert fails
with the storage-level unique-constraint violation, Register returns the generic
internal error, not the already-exists conflict of the pre-checks. -/
theorem c7_amended_unique_violation_yields_internal (db : DB) (req : RegisterRequest)
    (salt : Nat) (uuid : String) (now : Nat)
    (hemail : PostgresUserRepository.ExistsByEmail db req.Email = false)
    (husername : PostgresUserRepository.ExistsByUsername db req.Username = false)
    (hcreate : PostgresUserRepository.Create db
        (NewUser uuid now req.Email req.Username (PasswordHasher.Hash salt req.Password)
          req.FullName "user")
      = Except.error CreateError.uniqueViolation) :
    UserUsecase.Register db req salt uuid now = Except.error UCError.internal
    ∧ UserUsecase.Register db req salt uuid now ≠ Except.error UCError.emailAlreadyExists
    ∧ UserUsecase.Register db req salt uuid now ≠ Except.error UCError.usernameAlreadyExists := by
  have h : UserUsecase.Register db req salt uuid now = Except.error UCError.internal := by
    simp [UserUsecase.Register, hemail, husername, hcreate]
  refine ⟨h, ?_, ?_⟩
  · rw [h]; simp
  · rw [h]; simp

/-- Witness for the amended C7 on the soft-deleted-row state. -/
theorem c7_amended_witness :
    (PostgresUserRepository.ExistsByEmail [carolDeleted] "c@x.com" = false
      ∧ PostgresUserRepository.ExistsByUsername [carolDeleted] "newcarol" = false
      ∧ PostgresUserRepository.Create [carolDeleted]
          (NewUser "u9" 100 "c@x.com" "newcarol" (PasswordHasher.Hash 7 "Abcdef1!")
            "Carol New" "user")
        = Except.error CreateError.uniqueViolation)
    ∧ UserUsecase.Register [carolDeleted]
        { Email := "c@x.com", Username := "newcarol"
        , Password := "Abcdef1!", FullName := "Carol New" } 7 "u9" 100
      = Except.error UCError.internal := by
  have h := c7_amended_unique_violation_yields_internal [carolDeleted]
    { Email := "c@x.com", Username := "newcarol"
    , Password := "Abcdef1!", FullName := "Carol New" } 7 "u9" 100
    (by decide) (by decide) (by decide)
  exact ⟨⟨by decide, by decide, by decide⟩, h.1⟩

/-! ### Claim C8 — delete is always a soft delete -/

/-- Claim C8: registration creates users in "active" status with no tombstone;
deleting an existing non-deleted user keeps the table the same size, turns the
row into its MarkAsDeleted image (status "inactive", deleted_at set), leaves all
other rows in place, and afterwards the id lookup, the existence checks (the
user being the unique non-deleted holder of its email and username), the list
query, and a repeated delete all treat the user as absent. -/
theorem c8_soft_delete (db : DB) (u : User) (now now' : Nat)
    (page pageSize : Nat) (search role status : String)
    (hmem : u ∈ db) (hlive : u.DeletedAt = none)
    (hemail : ∀ v ∈ db, v.DeletedAt = none → v.Email = u.Email → v.ID = u.ID)
    (husername : ∀ v ∈ db, v.DeletedAt = none → v.Username = u.Username → v.ID = u.ID) :
    (∀ uuid t e un pw fn rl, (NewUser uuid t e un pw fn rl).Status = "active"
      ∧ (NewUser uuid t e un pw fn rl).DeletedAt = none)
    ∧ ∃ db', PostgresUserRepository.Delete db u.ID now = Except.ok db'
        ∧ db'.length = db.length
        ∧ u.MarkAsDeleted now ∈ db'
        ∧ (∀ v ∈ db, v.ID ≠ u.ID → v ∈ db')
        ∧ PostgresUserRepository.GetByID db' u.ID = none
        ∧ PostgresUserRepository.Delete db' u.ID now' = Except.error RepoError.userNotFound
        ∧ PostgresUserRepository.ExistsByEmail db' u.Email = false
        ∧ PostgresUserRepository.ExistsByUsername db' u.Username = false
        ∧ (∀ r ∈ (PostgresUserRepository.List db' page pageSize search role status).1,
            r.ID ≠ u.ID) := by
  refine ⟨fun uuid t e un pw fn rl => ⟨rfl, rfl⟩, ?_⟩
  have hcond : (u.ID == u.ID && u.DeletedAt == none) = true := by simp [hlive]
  have hany : db.any (fun r => r.ID == u.ID && r.DeletedAt == none) = true :=
    List.any_eq_true.mpr ⟨u, hmem, hcond⟩
  refine ⟨db.map (fun r => if r.ID == u.ID && r.DeletedAt == none
    then deleteRow now r else r), ?_, ?_, ?_, ?_, ?_, ?_, ?_, ?_, ?_⟩
  · simp [PostgresUserRepository.Delete, hany]
  · exact List.length_map db _
  · refine List.mem_map.mpr ⟨u, hmem, ?_⟩
    rw [if_pos hcond]
    rfl
  · intro v hv hne
    refine List.mem_map.mpr ⟨v, hv, ?_⟩
    have : (v.ID == u.ID) = false := by simp [hne]
    simp [this]
  · rw [PostgresUserRepository.GetByID, List.find?_eq_none]
    intro r hr
    rcases List.mem_map.mp hr with ⟨v, hv, rfl⟩
    by_cases hc : (v.ID == u.ID && v.DeletedAt == none) = true
    · simp [hc, deleteRow]
    · have hc' : (v.ID == u.ID && v.DeletedAt == none) = false :=
        Bool.eq_false_iff.mpr hc
      simp only [hc', if_false]
      simp only [Bool.not_eq_true]
      exact hc'
  · have hnone : (db.map (fun r => if r.ID == u.ID && r.DeletedAt == none
        then deleteRow now r else r)).any (fun r => r.ID == u.ID && r.DeletedAt == none)
        = false := by
      rw [Bool.eq_false_iff]
      intro hcontra
      rcases List.any_eq_true.mp hcontra with ⟨r, hr, hpred⟩
      rcases List.mem_map.mp hr with ⟨v, hv, rfl⟩
      by_cases hc : (v.ID == u.ID && v.DeletedAt == none) = true
      · simp [hc, deleteRow] at hpred
      · have hc' : (v.ID == u.ID && v.DeletedAt == none) = false :=
          Bool.eq_false_iff.mpr hc
        rw [if_neg (by simp [hc'])] at hpred
        exact hc (by exact hpred)
    unfold PostgresUserRepository.Delete
    rw [if_neg (by rw [hnone]; exact Bool.false_ne_true)]
  · rw [PostgresUserRepository.ExistsByEmail, Bool.eq_false_iff]
    intro hcontra
    rcases List.any_eq_true.mp hcontra with ⟨r, hr, hpred⟩
    rcases List.mem_map.mp hr with ⟨v, hv, rfl⟩
    by_cases hc : (v.ID == u.ID && v.DeletedAt == none) = true
    · simp [hc, deleteRow] at hpred
    · have hc' : (v.ID == u.ID && v.DeletedAt == none) = false :=
        Bool.eq_false_iff.mpr hc
      rw [if_neg (by simp [hc'])] at hpred
      rw [Bool.and_eq_true] at hpred
      have h1 : v.Email = u.Email := beq_iff_eq.mp hpred.1
      have h2 : v.DeletedAt = none := by simpa using hpred.2
      have hid : v.ID = u.ID := hemail v hv h2 h1
      simp [hid, h2] at hc'
  · rw [PostgresUserRepository.ExistsByUsername, Bool.eq_false_iff]
    intro hcontra
    rcases List.any_eq_true.mp hcontra with ⟨r, hr, hpred⟩
    rcases List.mem_map.mp hr with ⟨v, hv, rfl⟩
    by_cases hc : (v.ID == u.ID && v.DeletedAt == none) = true
    · simp [hc, deleteRow] at hpred
    · have hc' : (v.ID == u.ID && v.DeletedAt == none) = false :=
        Bool.eq_false_iff.mpr hc
      rw [if_neg (by simp [hc'])] at hpred
      rw [Bool.and_eq_true] at hpred
      have h1 : v.Username = u.Username := beq_iff_eq.mp hpred.1
      have h2 : v.DeletedAt = none := by simpa using hpred.2
      have hid : v.ID = u.ID := husername v hv h2 h1
      simp [hid, h2] at hc'
  · intro r hr
    have hsorted : r ∈ sortByCreatedDesc ((db.map (fun r => if r.ID == u.ID
        && r.DeletedAt == none then deleteRow now r else r)).filter
        (fun r => r.DeletedAt == none && matchesFilters search role status r)) := by
      exact List.drop_subset _ _ (List.take_subset _ _ hr)
    have hbase := (mem_sortByCreatedDesc r _).mp hsorted
    rcases List.mem_filter.mp hbase with ⟨hmem', hpred⟩
    rcases List.mem_map.mp hmem' with ⟨v, hv, rfl⟩
    by_cases hc : (v.ID == u.ID && v.DeletedAt == none) = true
    · rw [if_pos hc] at hpred ⊢
      have : (deleteRow now v).DeletedAt = some now := rfl
      rw [Bool.and_eq_true] at hpred
      simp [this] at hpred
    · have hc' : (v.ID == u.ID && v.DeletedAt == none) = false :=
        Bool.eq_false_iff.mpr hc
      rw [if_neg (by simp [hc'])] at hpred ⊢
      rw [Bool.and_eq_true] at hpred
      have hvd : v.DeletedAt = none := by simpa using hpred.1
      rw [Bool.and_eq_false_iff] at hc'
      rcases hc' with hc' | hc'
      · simpa using hc'
      · exact absurd hvd (by simpa using hc')

/-- Witness for C8 at a one-row table. -/
theorem c8_soft_delete_witness :
    (alice ∈ [alice] ∧ alice.DeletedAt = none
      ∧ (∀ v ∈ [alice], v.DeletedAt = none → v.Email = alice.Email → v.ID = alice.ID)
      ∧ (∀ v ∈ [alice], v.DeletedAt = none → v.Username = alice.Username → v.ID = alice.ID))
    ∧ ((∀ uuid t e un pw fn rl, (NewUser uuid t e un pw fn rl).Status = "active"
        ∧ (NewUser uuid t e un pw fn rl).DeletedAt = none)
      ∧ ∃ db', PostgresUserRepository.Delete [alice] alice.ID 50 = Except.ok db'
          ∧ db'.length = ([alice] : DB).length
          ∧ alice.MarkAsDeleted 50 ∈ db'
          ∧ (∀ v ∈ ([alice] : DB), v.ID ≠ alice.ID → v ∈ db')
          ∧ PostgresUserRepository.GetByID db' alice.ID = none
          ∧ PostgresUserRepository.Delete db' alice.ID 60 = Except.error RepoError.userNotFound
          ∧ PostgresUserRepository.ExistsByEmail db' alice.Email = false
          ∧ PostgresUserRepository.ExistsByUsername db' alice.Username = false
          ∧ (∀ r ∈ (PostgresUserRepository.List db' 1 20 "" "" "").1, r.ID ≠ alice.ID)) := by
  refine ⟨⟨by decide, by decide, by decide, by decide⟩, ?_⟩
  exact c8_soft_delete [alice] alice 50 60 1 20 "" "" ""
    (by decide) (by decide) (by decide) (by decide)

end GoTemplate
